import Mathlib

/-!
Verification of the jitsi-slack signed-request validation and conference-token
issuance core, as a shallow embedding in Lean 4.

Embedded source functions:
* `ValidRequest` (Slack request signature validation, HMAC-SHA256 over
  "v0:<timestamp>:<body>", with a 300-second freshness window);
* `TokenGenerator.CreateJWT` (RS256 JWT minting, token.go);
* `MeetingGenerator.New` (meeting.go);
* the `main` wiring that constructs the slash-command handler configuration.

Machine integers are modelled as `Nat`/`Int` with explicit reductions
(`% 2^32` for SHA-256 words, explicit int64 range checks for parsing).
Byte strings are `List Nat` with entries below 256.
-/

set_option maxRecDepth 100000
set_option exponentiation.threshold 2000

/-! ## SHA-256 and HMAC-SHA256 (the Go standard library crypto used by ValidRequest) -/

/-- Addition of two 32-bit words, reduced mod 2^32. -/
def add32 (a b : Nat) : Nat := (a + b) % 4294967296

/-- Right rotation of a 32-bit word `x < 2^32` by `n` (with `0 < n < 32`). -/
def rotr32 (n x : Nat) : Nat := x / 2 ^ n + x % 2 ^ n * 2 ^ (32 - n)

/-- Logical right shift of a 32-bit word. -/
def shr32 (n x : Nat) : Nat := x / 2 ^ n

/-- Bitwise complement of a 32-bit word `x < 2^32`. -/
def not32 (x : Nat) : Nat := 4294967295 - x

/-- The SHA-256 choice function Ch(x,y,z). -/
def ch32 (x y z : Nat) : Nat := Nat.xor (Nat.land x y) (Nat.land (not32 x) z)

/-- The SHA-256 majority function Maj(x,y,z). -/
def maj32 (x y z : Nat) : Nat := Nat.xor (Nat.xor (Nat.land x y) (Nat.land x z)) (Nat.land y z)

/-- SHA-256 big sigma 0. -/
def bsig0 (x : Nat) : Nat := Nat.xor (Nat.xor (rotr32 2 x) (rotr32 13 x)) (rotr32 22 x)

/-- SHA-256 big sigma 1. -/
def bsig1 (x : Nat) : Nat := Nat.xor (Nat.xor (rotr32 6 x) (rotr32 11 x)) (rotr32 25 x)

/-- SHA-256 small sigma 0. -/
def ssig0 (x : Nat) : Nat := Nat.xor (Nat.xor (rotr32 7 x) (rotr32 18 x)) (shr32 3 x)

/-- SHA-256 small sigma 1. -/
def ssig1 (x : Nat) : Nat := Nat.xor (Nat.xor (rotr32 17 x) (rotr32 19 x)) (shr32 10 x)

/-- The 64 SHA-256 round constants of FIPS 180-4, in decimal. -/
def sha256K : List Nat :=
  [1116352408, 1899447441, 3049323471, 3921009573, 961987163,
   1508970993, 2453635748, 2870763221, 3624381080, 310598401,
   607225278, 1426881987, 1925078388, 2162078206, 2614888103,
   3248222580, 3835390401, 4022224774, 264347078, 604807628,
   770255983, 1249150122, 1555081692, 1996064986, 2554220882,
   2821834349, 2952996808, 3210313671, 3336571891, 3584528711,
   113926993, 338241895, 666307205, 773529912, 1294757372,
   1396182291, 1695183700, 1986661051, 2177026350, 2456956037,
   2730485921, 2820302411, 3259730800, 3345764771, 3516065817,
   3600352804, 4094571909, 275423344, 430227734, 506948616,
   659060556, 883997877, 958139571, 1322822218, 1537002063,
   1747873779, 1955562222, 2024104815, 2227730452, 2361852424,
   2428436474, 2756734187, 3204031479, 3329325298]

/-- The SHA-256 initial hash state of FIPS 180-4, in decimal. -/
def sha256H0 : List Nat :=
  [1779033703, 3144134277, 1013904242, 2773480762,
   1359893119, 2600822924, 528734635, 1541459225]

/-- 8-byte big-endian encoding of a natural number below 2^64. -/
def be64 (n : Nat) : List Nat :=
  [n / 2 ^ 56 % 256, n / 2 ^ 48 % 256, n / 2 ^ 40 % 256, n / 2 ^ 32 % 256,
   n / 2 ^ 24 % 256, n / 2 ^ 16 % 256, n / 2 ^ 8 % 256, n % 256]

/-- 4-byte big-endian encoding of a 32-bit word. -/
def be32 (n : Nat) : List Nat := [n / 2 ^ 24 % 256, n / 2 ^ 16 % 256, n / 2 ^ 8 % 256, n % 256]

/-- SHA-256 message padding: append 0x80, zeros up to 56 mod 64, then the 64-bit bit length. -/
def sha256Pad (msg : List Nat) : List Nat :=
  msg ++ 0x80 :: List.replicate ((56 + 64 - (msg.length + 1) % 64) % 64) 0 ++ be64 (8 * msg.length)

/-- Split a padded byte list into its 64-byte blocks. -/
def toBlocks (l : List Nat) : List (List Nat) :=
  (List.range (l.length / 64)).map (fun i => (l.drop (64 * i)).take 64)

/-- The 16 initial 32-bit message-schedule words of a 64-byte block. -/
def blockWords (b : List Nat) : List Nat :=
  (List.range 16).map (fun i =>
    b.getD (4 * i) 0 * 2 ^ 24 + b.getD (4 * i + 1) 0 * 2 ^ 16 +
    b.getD (4 * i + 2) 0 * 2 ^ 8 + b.getD (4 * i + 3) 0)

/-- Extend the 16 words of a block to the full 64-word message schedule. -/
def schedule (b : List Nat) : List Nat :=
  (List.range 48).foldl
    (fun w j =>
      w ++ [add32 (add32 (ssig1 (w.getD (j + 14) 0)) (w.getD (j + 9) 0))
              (add32 (ssig0 (w.getD (j + 1) 0)) (w.getD j 0))])
    (blockWords b)

/-- One SHA-256 compression round on the 8-word working state. -/
def roundStep (st : Nat × Nat × Nat × Nat × Nat × Nat × Nat × Nat) (kw : Nat × Nat) :
    Nat × Nat × Nat × Nat × Nat × Nat × Nat × Nat :=
  match st, kw with
  | (a, b, c, d, e, f, g, h), (k, w) =>
    let t1 := add32 (add32 (add32 h (bsig1 e)) (add32 (ch32 e f g) k)) w
    let t2 := add32 (bsig0 a) (maj32 a b c)
    (add32 t1 t2, a, b, c, add32 d t1, e, f, g)

/-- SHA-256 compression of one 64-byte block into the running hash state. -/
def compressBlock (hs : List Nat) (b : List Nat) : List Nat :=
  let init := (hs.getD 0 0, hs.getD 1 0, hs.getD 2 0, hs.getD 3 0,
               hs.getD 4 0, hs.getD 5 0, hs.getD 6 0, hs.getD 7 0)
  let st := (sha256K.zip (schedule b)).foldl roundStep init
  [add32 (hs.getD 0 0) st.1, add32 (hs.getD 1 0) st.2.1, add32 (hs.getD 2 0) st.2.2.1,
   add32 (hs.getD 3 0) st.2.2.2.1, add32 (hs.getD 4 0) st.2.2.2.2.1,
   add32 (hs.getD 5 0) st.2.2.2.2.2.1, add32 (hs.getD 6 0) st.2.2.2.2.2.2.1,
   add32 (hs.getD 7 0) st.2.2.2.2.2.2.2]

/-- SHA-256 of a byte list, as its 32-byte digest. -/
def sha256 (msg : List Nat) : List Nat :=
  ((toBlocks (sha256Pad msg)).foldl compressBlock sha256H0).flatMap be32

/-- HMAC-SHA256 (RFC 2104) with the 64-byte SHA-256 block size, as used by
Go's crypto/hmac with crypto/sha256. -/
def hmacSha256 (key msg : List Nat) : List Nat :=
  let k0 := if 64 < key.length then sha256 key else key
  let kp := k0 ++ List.replicate (64 - k0.length) 0
  sha256 (kp.map (Nat.xor 0x5c) ++ sha256 (kp.map (Nat.xor 0x36) ++ msg))

/-- UTF-8 encoding of one character, as byte values. -/
def utf8Char (c : Char) : List Nat :=
  let n := c.toNat
  if n < 0x80 then [n]
  else if n < 0x800 then [0xC0 + n / 64, 0x80 + n % 64]
  else if n < 0x10000 then [0xE0 + n / 4096, 0x80 + n / 64 % 64, 0x80 + n % 64]
  else [0xF0 + n / 262144, 0x80 + n / 4096 % 64, 0x80 + n / 64 % 64, 0x80 + n % 64]

/-- UTF-8 bytes of a string, Go's `[]byte(s)`. -/
def strBytes (s : String) : List Nat := s.data.flatMap utf8Char

/-- One lowercase hex digit. -/
def hexDigit (n : Nat) : Char := "0123456789abcdef".data.getD n '0'

/-- Lowercase hex encoding of a byte list, Go's `hex.EncodeToString`. -/
def hexEncode (bs : List Nat) : String :=
  String.mk (bs.flatMap (fun b => [hexDigit (b / 16), hexDigit (b % 16)]))

/-! ## strconv.ParseInt(s, 10, 64), as called by ValidRequest -/

/-- Decimal digit value of a character, if it is one. -/
def digitVal (c : Char) : Option Nat :=
  if '0' ≤ c ∧ c ≤ '9' then some (c.toNat - 48) else none

/-- Accumulate decimal digits; fails on any non-digit. -/
def parseDigitsAux (acc : Nat) : List Char → Option Nat
  | [] => some acc
  | c :: cs =>
    match digitVal c with
    | none => none
    | some d => parseDigitsAux (acc * 10 + d) cs

/-- Parse an unsigned run of at least one decimal digit and apply the sign and
the int64 range check (2^63 for negative values, 2^63 - 1 for positive). -/
def parseSigned (neg : Bool) : List Char → Option Int
  | [] => none
  | cs =>
    match parseDigitsAux 0 cs with
    | none => none
    | some v =>
      if neg then (if v ≤ 2 ^ 63 then some (-(v : Int)) else none)
      else (if v ≤ 2 ^ 63 - 1 then some (v : Int) else none)

/-- Go's `strconv.ParseInt(s, 10, 64)`, returning `none` exactly when the Go
call returns a non-nil error (empty string, stray characters, or int64
overflow; underscores are not permitted at an explicit base). -/
def goParseInt64 (s : String) : Option Int :=
  match s.data with
  | '+' :: cs => parseSigned false cs
  | '-' :: cs => parseSigned true cs
  | cs => parseSigned false cs

/-! ## ValidRequest (unnamed source file, Slack request signature validation)

The Go source computes the freshness test as
`math.Abs(float64(now)-float64(ts)) > 60*5`.  Both conversions and the
subtraction are exact IEEE float64 operations whenever `|now| < 2^53` and
`|ts| < 2^53` (any rounding of a difference that large in magnitude cannot
bring it below 301), so on that range — which contains every realistic Unix
clock reading — the test is exactly `|now - ts| > 300` over the integers,
which is how it is modelled here.  Theorems about the freshness branch carry
the `< 2^53` hypotheses to record that exactness range. -/

/-- The canonical signing base `fmt.Sprintf("%s:%s:%s", SignatureVersion, timestamp, requestBody)`
with `SignatureVersion = "v0"`. -/
def sigBaseString (timestamp requestBody : String) : String :=
  "v0" ++ ":" ++ timestamp ++ ":" ++ requestBody

/-- The signature ValidRequest computes for itself:
`fmt.Sprintf("%s=%s", SignatureVersion, hex.EncodeToString(hmac))`. -/
def expectedSignature (slackSigningSecret timestamp requestBody : String) : String :=
  "v0" ++ "=" ++
    hexEncode (hmacSha256 (strBytes slackSigningSecret) (strBytes (sigBaseString timestamp requestBody)))

/-- `ValidRequest(slackSigningSecret, requestBody, timestamp, slackSignature)`.
The ambient clock reading `time.Now().Unix()` is the explicit first argument. -/
def validRequest (now : Int) (slackSigningSecret requestBody timestamp slackSignature : String) :
    Bool :=
  match goParseInt64 timestamp with
  | none => false
  | some ts =>
    if 300 < (now - ts).natAbs then false
    else expectedSignature slackSigningSecret timestamp requestBody == slackSignature

/-! ## Go time.Time, as used by CreateJWT (token.go)

A Go `time.Time` carries a seconds-since-epoch field and a nanosecond field in
`[0, 1e9)`; a `time.Duration` is an int64 count of nanoseconds.  `Time.Add`
splits the duration with Go's truncated division and renormalizes the
nanosecond field; `Unix()` returns the seconds field. -/

/-- A wall-clock reading: seconds since the Unix epoch plus nanoseconds. -/
structure GoTime where
  sec : Int
  nsec : Int

/-- Go's `Time.Add` for a duration `d` in nanoseconds (truncated int64
division, then nanosecond renormalization). -/
def goTimeAdd (t : GoTime) (d : Int) : GoTime :=
  let dsec := Int.tdiv d 1000000000
  let n := t.nsec + Int.tmod d 1000000000
  if 1000000000 ≤ n then ⟨t.sec + dsec + 1, n - 1000000000⟩
  else if n < 0 then ⟨t.sec + dsec - 1, n + 1000000000⟩
  else ⟨t.sec + dsec, n⟩

/-- Go's `Time.Unix()`: seconds since the epoch. -/
def GoTime.unix (t : GoTime) : Int := t.sec

/-! ## JSON values and Go's encoding/json serialization

`jwt-go` marshals the header and claim maps with `encoding/json`: map keys are
emitted in sorted order, struct fields in declaration order, and strings are
escaped with the default HTML-safe escaping. -/

/-- The JSON values produced by the token generator (strings, int64 numbers,
and objects with an explicit field order). -/
inductive Json where
  | str : String → Json
  | num : Int → Json
  | obj : List (String × Json) → Json

/-- Go encoding/json string escaping (with the default HTML escaping of
`<`, `>`, `&`, and of U+2028/U+2029). -/
def jsonEscapeChar (c : Char) : List Char :=
  if c = '"' then ['\\', '"']
  else if c = '\\' then ['\\', '\\']
  else if c = '\n' then ['\\', 'n']
  else if c = '\r' then ['\\', 'r']
  else if c = '\t' then ['\\', 't']
  else if c = '<' then "\\u003c".data
  else if c = '>' then "\\u003e".data
  else if c = '&' then "\\u0026".data
  else if c.toNat < 32 then ['\\', 'u', '0', '0', hexDigit (c.toNat / 16), hexDigit (c.toNat % 16)]
  else if c.toNat = 8232 then "\\u2028".data
  else if c.toNat = 8233 then "\\u2029".data
  else [c]

/-- A JSON string literal with Go's escaping. -/
def jsonStrLit (s : String) : String :=
  "\"" ++ String.mk (s.data.flatMap jsonEscapeChar) ++ "\""

/-- Serialization of a `Json` value, structurally recursive on a depth budget
(every value serialized in this development has nesting depth at most 3, and
`jsonSer` passes a budget of 8). -/
def serJsonFuel : Nat → Json → String
  | 0, _ => ""
  | fuel + 1, j =>
    match j with
    | .str s => jsonStrLit s
    | .num n => toString n
    | .obj l =>
      "\x7b" ++
        String.intercalate "," (l.map (fun kv => jsonStrLit kv.1 ++ ":" ++ serJsonFuel fuel kv.2)) ++
        "\x7d"

/-- Serialization of a `Json` value (Go's `json.Marshal` output format). -/
def jsonSer (j : Json) : String := serJsonFuel 8 j

/-- Field list of a JSON object. -/
def jsonKeys : Json → List String
  | .obj l => l.map Prod.fst
  | _ => []

/-- Field lookup in a JSON object. -/
def jsonLookup (j : Json) (k : String) : Option Json :=
  match j with
  | .obj l => l.lookup k
  | _ => none

/-! ## Unpadded base64url (jwt-go's EncodeSegment / DecodeSegment alphabet) -/

/-- The base64url alphabet character for a 6-bit value. -/
def b64Char (n : Nat) : Char :=
  "ABCDEFGHIJKLMNOPQRSTUVWXYZabcdefghijklmnopqrstuvwxyz0123456789-_".data.getD n '0'

/-- 6-bit value of a base64url alphabet character. -/
def b64Val (c : Char) : Nat :=
  if 'A' ≤ c ∧ c ≤ 'Z' then c.toNat - 65
  else if 'a' ≤ c ∧ c ≤ 'z' then c.toNat - 71
  else if '0' ≤ c ∧ c ≤ '9' then c.toNat + 4
  else if c = '-' then 62
  else if c = '_' then 63
  else 0

/-- Unpadded base64url encoding of a byte list, three bytes at a time. -/
def b64uChars : List Nat → List Char
  | [] => []
  | [a] => [b64Char (a / 4), b64Char (a % 4 * 16)]
  | [a, b] => [b64Char (a / 4), b64Char (a % 4 * 16 + b / 16), b64Char (b % 16 * 4)]
  | a :: b :: c :: rest =>
    b64Char (a / 4) :: b64Char (a % 4 * 16 + b / 16) ::
      b64Char (b % 16 * 4 + c / 64) :: b64Char (c % 64) :: b64uChars rest

/-- Unpadded base64url encoding, as a string. -/
def b64u (bs : List Nat) : String := String.mk (b64uChars bs)

/-- Unpadded base64url decoding, four characters at a time. -/
def b64uDecodeChars : List Char → List Nat
  | [] => []
  | [_] => []
  | [a, b] => [b64Val a * 4 + b64Val b / 16]
  | [a, b, c] => [b64Val a * 4 + b64Val b / 16, b64Val b % 16 * 16 + b64Val c / 4]
  | a :: b :: c :: d :: rest =>
    (b64Val a * 4 + b64Val b / 16) :: (b64Val b % 16 * 16 + b64Val c / 4) ::
      (b64Val c % 4 * 64 + b64Val d) :: b64uDecodeChars rest

/-- Unpadded base64url decoding of a string. -/
def b64uDecode (s : String) : List Nat := b64uDecodeChars s.data

/-! ## RS256 (RSASSA-PKCS1-v1_5 with SHA-256), as performed by
crypto/rsa.SignPKCS1v15 under jwt-go's SigningMethodRS256 -/

/-- The RSA private key material CreateJWT obtains from
`x509.ParsePKCS8PrivateKey`: modulus, public exponent, private exponent. -/
structure RSAKey where
  n : Nat
  e : Nat
  d : Nat

/-- Bit-length worker, structurally recursive on a fuel bound (the fuel `n`
itself always suffices, since the bit length of `n` is at most `n`). -/
def natBitLenAux : Nat → Nat → Nat
  | 0, _ => 0
  | fuel + 1, n => if n = 0 then 0 else natBitLenAux fuel (n / 2) + 1

/-- Bit length of a natural number (Go's `big.Int.BitLen`). -/
def natBitLen (n : Nat) : Nat := natBitLenAux n n

/-- Byte size of an RSA modulus, Go's `(n.BitLen() + 7) / 8`. -/
def rsaByteLen (n : Nat) : Nat := (natBitLen n + 7) / 8

/-- Big-endian byte-list-to-natural conversion (RFC 8017 OS2IP). -/
def osToNat (bs : List Nat) : Nat := bs.foldl (fun acc b => acc * 256 + b) 0

/-- Big-endian natural-to-byte-list conversion with a fixed length
(RFC 8017 I2OSP). -/
def natToBytes : Nat → Nat → List Nat
  | 0, _ => []
  | k + 1, n => natToBytes k (n / 256) ++ [n % 256]

/-- The DER DigestInfo prefix for SHA-256 used by crypto/rsa's PKCS#1 v1.5
signing (hashPrefixes[crypto.SHA256]). -/
def sha256DigestInfo : List Nat :=
  [48, 49, 48, 13, 6, 9, 96, 134, 72, 1, 101, 3, 4, 2, 1, 5, 0, 4, 32]

/-- EMSA-PKCS1-v1_5 encoding of a message for a k-byte RSA modulus:
`00 01 FF…FF 00 ‖ DigestInfo ‖ SHA-256(msg)`; fails (as crypto/rsa does, with
ErrMessageTooLong) when the modulus is too short for the padded digest. -/
def emsaPkcs1v15 (k : Nat) (msg : List Nat) : Option (List Nat) :=
  let t := sha256DigestInfo ++ sha256 msg
  if k < t.length + 11 then none
  else some (0 :: 1 :: (List.replicate (k - t.length - 3) 255 ++ 0 :: t))

/-- Modular exponentiation worker, structurally recursive on a fuel bound. -/
def powModAux (n a : Nat) : Nat → Nat → Nat
  | 0, _ => 1 % n
  | fuel + 1, e =>
    if e = 0 then 1 % n
    else
      let r := powModAux n (a * a % n) fuel (e / 2)
      if e % 2 = 1 then r * a % n else r

/-- Modular exponentiation `a ^ e % n` by binary exponentiation. -/
def powMod (a e n : Nat) : Nat := powModAux n (a % n) e e

/-- RSASSA-PKCS1-v1_5 signing with SHA-256: pad the digest, then apply the
private RSA operation `m ^ d mod n`. -/
def rs256Sign (key : RSAKey) (msg : List Nat) : Option (List Nat) :=
  let k := rsaByteLen key.n
  match emsaPkcs1v15 k msg with
  | none => none
  | some em => some (natToBytes k (powMod (osToNat em) key.d key.n))

/-- RSASSA-PKCS1-v1_5 verification with SHA-256 against the public key
`(n, e)`: the signature must be exactly `k` bytes and its public RSA image
`s ^ e mod n` must equal the padded digest. -/
def rs256Verify (n e : Nat) (msg sig : List Nat) : Bool :=
  let k := rsaByteLen n
  match emsaPkcs1v15 k msg with
  | none => false
  | some em => sig.length == k && powMod (osToNat sig) e n == osToNat em

/-! ## TokenGenerator.CreateJWT (token.go) -/

/-- `TokenGenerator`: the conference-token configuration.  `Lifetime` is a Go
`time.Duration`, an int64 count of nanoseconds. -/
structure TokenGenerator where
  Lifetime : Int
  PrivateKey : String
  Issuer : String
  Audience : String
  Kid : String

/-- `JWTInput`: the input required to generate a meeting JWT for a user. -/
structure JWTInput where
  TenantID : String
  TenantName : String
  RoomClaim : String
  UserID : String
  UserName : String
  AvatarURL : String

/-- The JWT header `jwt.NewWithClaims(jwt.SigningMethodRS256, …)` produces
after `token.Header["kid"] = g.Kid`: a map serialized with sorted keys. -/
def headerJson (g : TokenGenerator) : Json :=
  .obj [("alg", .str "RS256"), ("kid", .str g.Kid), ("typ", .str "JWT")]

/-- The nested `context` claim (contextClaim / userClaim structs, fields in
declaration order). -/
def contextJson (input : JWTInput) : Json :=
  .obj [("user", .obj [("id", .str input.UserID), ("name", .str input.UserName),
                       ("avatar", .str input.AvatarURL)]),
        ("group", .str input.TenantName)]

/-- The claim map CreateJWT builds (`jwt.MapClaims`), serialized with sorted
keys: aud, context, exp, iss, nbf, room, sub. -/
def claimsJson (now : GoTime) (g : TokenGenerator) (input : JWTInput) : Json :=
  .obj [("aud", .str g.Audience),
        ("context", contextJson input),
        ("exp", .num (goTimeAdd now g.Lifetime).unix),
        ("iss", .str g.Issuer),
        ("nbf", .num now.unix),
        ("room", .str input.RoomClaim),
        ("sub", .str input.TenantName)]

/-- jwt-go's SigningString: base64url(header JSON) ++ "." ++ base64url(claims JSON). -/
def signingString (now : GoTime) (g : TokenGenerator) (input : JWTInput) : String :=
  b64u (strBytes (jsonSer (headerJson g))) ++ "." ++
    b64u (strBytes (jsonSer (claimsJson now g input)))

/-- `TokenGenerator.CreateJWT`.  The ambient clock reading `time.Now()` is the
explicit `now` argument, and the external key pipeline
`dataurl.DecodeString` + `x509.ParsePKCS8PrivateKey` — a Go library call made
inside every CreateJWT invocation on `g.PrivateKey` — is the explicit
`parseKey` argument.  On parse failure CreateJWT returns that error; otherwise
it signs jwt-go's signing string and appends the base64url signature. -/
def createJWT (parseKey : String → Except String RSAKey) (now : GoTime)
    (g : TokenGenerator) (input : JWTInput) : Except String String :=
  match parseKey g.PrivateKey with
  | .error err => .error err
  | .ok key =>
    let ss := signingString now g input
    match rs256Sign key (strBytes ss) with
    | none => .error "crypto/rsa: message too long for RSA key size"
    | some sig => .ok (ss ++ "." ++ b64u sig)

/-! ## Startup wiring (cmd/api/main.go) -/

/-- The environment-derived configuration fields of `main` that feed the token
generator. -/
structure AppConfig where
  jitsiTokenSigningKey : String
  jitsiTokenIssuer : String
  jitsiTokenAudience : String
  jitsiTokenKid : String

/-- The `jitsi.TokenGenerator` literal `main` constructs at startup:
`Lifetime: time.Hour * 24` (86400e9 nanoseconds) and the raw, undecoded
signing-key string from configuration.  Startup is total: no key material is
decoded, parsed, or validated here. -/
def mainTokenGenerator (app : AppConfig) : TokenGenerator :=
  { Lifetime := 86400000000000
    PrivateKey := app.jitsiTokenSigningKey
    Issuer := app.jitsiTokenIssuer
    Audience := app.jitsiTokenAudience
    Kid := app.jitsiTokenKid }

/-! ## MeetingGenerator.New (meeting.go) -/

/-- `ServerCfg`: the per-team server configuration. -/
structure ServerCfg where
  Server : String
  TenantScopedURLs : Bool
  AuthenticatedURLSupport : Bool

/-- `Meeting`: the server-specific info for a meeting, including the
`AuthenticatedURL` closure. -/
structure Meeting where
  RoomName : String
  URL : String
  Host : String
  AuthenticatedURL : String → String → String → Except String String

/-- `MeetingGenerator.New`.  The `ServerConfigReader` and
`MeetingTokenGenerator` interface collaborators are the explicit function
arguments, and the `RandomName()` draw is the explicit `randomRoom` argument. -/
def meetingNew (getServerCfg : String → Except String ServerCfg)
    (createTok : JWTInput → Except String String) (randomRoom : String)
    (teamID teamName : String) : Except String Meeting :=
  match getServerCfg teamID with
  | .error err => .error err
  | .ok srv =>
    let url := if srv.TenantScopedURLs
      then srv.Server ++ "/" ++ teamName.toLower ++ "/" ++ randomRoom
      else srv.Server ++ "/" ++ randomRoom
    .ok { RoomName := randomRoom
          URL := url
          Host := srv.Server
          AuthenticatedURL := if srv.AuthenticatedURLSupport then
              fun userID userName avatarURL =>
                match createTok ⟨teamID, teamName, randomRoom, userID, userName, avatarURL⟩ with
                | .error err => .error err
                | .ok jwt => .ok (url ++ "?jwt=" ++ jwt)
            else fun _ _ _ => .ok url }

/-! ## Concrete fixtures for witnesses and counterexamples

`rsaDemoKey` stands for the parsed output of a PKCS#8 key blob: a key record
whose modulus is large enough (63 bytes) for PKCS#1 v1.5 signing.
`demoParseKey` models the dataurl-decode + PKCS#8-parse pipeline on two
concrete inputs: it accepts exactly the blob `"data:;base64,demo"`. -/

def rsaDemoKey : RSAKey := ⟨2 ^ 496 + 1, 1, 1⟩

def demoParseKey : String → Except String RSAKey :=
  fun s => if s = "data:;base64,demo" then .ok rsaDemoKey else .error "not a valid data url"

def demoCfg (lifetime : Int) : TokenGenerator :=
  { Lifetime := lifetime, PrivateKey := "data:;base64,demo", Issuer := "iss",
    Audience := "aud", Kid := "kid1" }

def demoInput : JWTInput :=
  { TenantID := "T123", TenantName := "Acme", RoomClaim := "room1", UserID := "U1",
    UserName := "Alice", AvatarURL := "https://example.com/a.png" }

def demoGetCfg : String → Except String ServerCfg :=
  fun teamID =>
    if teamID = "T123" then .ok ⟨"https://meet.example.com", false, true⟩
    else .error "no server configuration"

def demoCreateTok : JWTInput → Except String String :=
  fun input => .ok ("tok-" ++ input.RoomClaim)

/-- The meeting `meetingNew` produces for the demo team. -/
def demoMeeting : Meeting :=
  match meetingNew demoGetCfg demoCreateTok "quick" "T123" "Acme" with
  | .ok m => m
  | .error _ => ⟨"", "", "", fun _ _ _ => .error ""⟩

/-! ## A concrete well-formed RSA key from the Mersenne primes 2^127-1 and
2^521-1 (648-bit modulus, 81 modulus bytes), with d = e⁻¹ mod (p-1)(q-1) -/

def mersenneKey : RSAKey :=
  ⟨(2 ^ 127 - 1) * (2 ^ 521 - 1), 65537,
   193900767558032071937636487021452117448910287312278971207800283425644781136078887330150457137153435273259066364624685827854923748501752122182388647400968388233585136878839649485385373845435689473⟩

def mersenneParseKey : String → Except String RSAKey :=
  fun s => if s = "data:;base64,mersenne" then .ok mersenneKey else .error "not a valid data url"

def mersenneCfg : TokenGenerator :=
  { Lifetime := 86400000000000, PrivateKey := "data:;base64,mersenne", Issuer := "iss",
    Audience := "aud", Kid := "kid1" }

/-! ## Helper lemmas about ValidRequest's branches -/

/-- An unparsable timestamp makes ValidRequest return false. -/
theorem validRequest_of_parse_fail {now : Int} {secret body ts sig : String}
    (hp : goParseInt64 ts = none) : validRequest now secret body ts sig = false := by
  simp [validRequest, hp]

/-- A stale timestamp makes ValidRequest return false, whatever the signature. -/
theorem validRequest_of_stale {now t : Int} {secret body ts sig : String}
    (hp : goParseInt64 ts = some t) (hstale : 300 < (now - t).natAbs) :
    validRequest now secret body ts sig = false := by
  simp [validRequest, hp, hstale]

/-- A signature different from the recomputed one makes ValidRequest return false. -/
theorem validRequest_of_mismatch {now t : Int} {secret body ts sig : String}
    (hp : goParseInt64 ts = some t)
    (hne : sig ≠ expectedSignature secret ts body) :
    validRequest now secret body ts sig = false := by
  simp only [validRequest, hp]
  split
  · rfl
  · simp [Ne.symm hne]

/-- A fresh timestamp together with the recomputed signature makes ValidRequest
return true. -/
theorem validRequest_of_fresh_eq {now t : Int} {secret body ts : String}
    (hp : goParseInt64 ts = some t) (hfresh : (now - t).natAbs ≤ 300) :
    validRequest now secret body ts (expectedSignature secret ts body) = true := by
  simp [validRequest, hp, Nat.not_lt.mpr hfresh]

/-- C1: for every secret `S`, body `B` and timestamp string `T` that parses to an
integer `t` within the 300-second freshness window of the verification time
`now` (both in the range where the source's float64 freshness arithmetic is
exact), `ValidRequest` accepts the signature built by the signing algorithm
itself: `"v0="` followed by the hex HMAC-SHA256, keyed by `S`, of the canonical
base `"v0:" ++ T ++ ":" ++ B` — the sign/verify round trip. -/
theorem validRequest_roundtrip (S B T : String) (t now : Int)
    (hp : goParseInt64 T = some t)
    (hfresh : (now - t).natAbs ≤ 300)
    (hnow : now.natAbs < 2 ^ 53) (ht : t.natAbs < 2 ^ 53) :
    validRequest now S B T (expectedSignature S T B) = true :=
  validRequest_of_fresh_eq hp hfresh

/-- Witness for C1 at secret "shh", body "text=hello", timestamp "1700000000",
with the verification clock at 1700000000. -/
theorem validRequest_roundtrip_witness :
    goParseInt64 "1700000000" = some 1700000000 ∧
    ((1700000000 : Int) - 1700000000).natAbs ≤ 300 ∧
    validRequest 1700000000 "shh" "text=hello" "1700000000"
      (expectedSignature "shh" "1700000000" "text=hello") = true :=
  ⟨by decide, by decide,
    validRequest_roundtrip "shh" "text=hello" "1700000000" 1700000000 1700000000
      (by decide) (by decide) (by decide) (by decide)⟩

/-- C2: whenever the parsed timestamp differs from the verification time by
more than 300 seconds, ValidRequest returns false for every supplied signature
— including the correct HMAC for that timestamp and body; in particular a
timestamp equal to `now - 301` is rejected even with its correct signature,
and a timestamp equal to `now - 299` with its correct signature is accepted.
(The `< 2^53` hypotheses delimit the range where the source's float64
freshness arithmetic is exact.) -/
theorem validRequest_freshness_window (now : Int) (S B : String)
    (hnow : now.natAbs < 2 ^ 53) :
    (∀ T sig t, t.natAbs < 2 ^ 53 → goParseInt64 T = some t →
      300 < (now - t).natAbs → validRequest now S B T sig = false) ∧
    (∀ T, goParseInt64 T = some (now - 301) →
      validRequest now S B T (expectedSignature S T B) = false) ∧
    (∀ T, goParseInt64 T = some (now - 299) →
      validRequest now S B T (expectedSignature S T B) = true) := by
  refine ⟨fun T sig t _ hp hstale => validRequest_of_stale hp hstale, ?_, ?_⟩
  · intro T hp
    refine validRequest_of_stale hp ?_
    have : now - (now - 301) = 301 := by ring
    rw [this]
    decide
  · intro T hp
    refine validRequest_of_fresh_eq hp ?_
    have : now - (now - 299) = 299 := by ring
    rw [this]
    decide

/-- Witness for C2 with the clock at 1700000000: the stale timestamp
"1699999000" (1000 seconds old) is rejected even with an arbitrary signature,
"1699999699" (301 seconds old) is rejected even with its correct signature,
and "1699999701" (299 seconds old) with its correct signature is accepted. -/
theorem validRequest_freshness_window_witness :
    validRequest 1700000000 "shh" "text=hello" "1699999000" "sig" = false ∧
    validRequest 1700000000 "shh" "text=hello" "1699999699"
      (expectedSignature "shh" "1699999699" "text=hello") = false ∧
    validRequest 1700000000 "shh" "text=hello" "1699999701"
      (expectedSignature "shh" "1699999701" "text=hello") = true :=
  ⟨(validRequest_freshness_window 1700000000 "shh" "text=hello" (by decide)).1
      "1699999000" "sig" 1699999000 (by decide) (by decide) (by decide),
   (validRequest_freshness_window 1700000000 "shh" "text=hello" (by decide)).2.1
      "1699999699" (by decide),
   (validRequest_freshness_window 1700000000 "shh" "text=hello" (by decide)).2.2
      "1699999701" (by decide)⟩

/-- C3: ValidRequest is a total boolean function — an unparsable timestamp
yields `false` (never an exception or error value), and the three failure
modes (unparsable timestamp, stale timestamp, signature mismatch) are
externally indistinguishable: each returns the same boolean `false`. -/
theorem validRequest_failure_modes (now : Int) (S B T sig : String) :
    (goParseInt64 T = none → validRequest now S B T sig = false) ∧
    (∀ t, goParseInt64 T = some t → 300 < (now - t).natAbs →
      validRequest now S B T sig = false) ∧
    (∀ t, goParseInt64 T = some t → sig ≠ expectedSignature S T B →
      validRequest now S B T sig = false) :=
  ⟨fun hp => validRequest_of_parse_fail hp,
   fun _ hp hstale => validRequest_of_stale hp hstale,
   fun _ hp hne => validRequest_of_mismatch hp hne⟩

/-- Witness for C3: with the clock at 1700000000, the non-numeric timestamp
"12:30", the stale timestamp "1000000000", and a wrong signature at a fresh
timestamp all produce the same observable result, `false`. -/
theorem validRequest_failure_modes_witness :
    validRequest 1700000000 "shh" "text=hello" "12:30" "v0=00" = false ∧
    validRequest 1700000000 "shh" "text=hello" "1000000000" "v0=00" = false ∧
    validRequest 1700000000 "shh" "text=hello" "1700000000" "v0=00" = false :=
  ⟨(validRequest_failure_modes 1700000000 "shh" "text=hello" "12:30" "v0=00").1 (by decide),
   (validRequest_failure_modes 1700000000 "shh" "text=hello" "1000000000" "v0=00").2.1
      1000000000 (by decide) (by decide),
   (validRequest_failure_modes 1700000000 "shh" "text=hello" "1700000000" "v0=00").2.2
      1700000000 (by decide) (by decide)⟩

/-- C8: supplying the signature computed for the original inputs fails
verification whenever the expected HMAC signature changed — and tampering does
change it: at the spec's example (secret "shh", timestamp 1700000000, body
"text=hello"), appending a space to the body, changing a byte of the secret,
or changing a byte of the timestamp each yield a different HMAC, and
verification of the tampered body against the original signature fails. -/
theorem validRequest_tamper_sensitivity :
    (∀ (now t : Int) (S B B' T sig : String), goParseInt64 T = some t →
      sig = expectedSignature S T B →
      expectedSignature S T B' ≠ expectedSignature S T B →
      validRequest now S B' T sig = false) ∧
    expectedSignature "shh" "1700000000" "text=hello " ≠
      expectedSignature "shh" "1700000000" "text=hello" ∧
    validRequest 1700000000 "shh" "text=hello " "1700000000"
      (expectedSignature "shh" "1700000000" "text=hello") = false ∧
    expectedSignature "shi" "1700000000" "text=hello" ≠
      expectedSignature "shh" "1700000000" "text=hello" ∧
    expectedSignature "shh" "1700000001" "text=hello" ≠
      expectedSignature "shh" "1700000000" "text=hello" := by
  have hbody : expectedSignature "shh" "1700000000" "text=hello " ≠
      expectedSignature "shh" "1700000000" "text=hello" := by decide
  refine ⟨fun now t S B B' T sig hp hsig hne => ?_, hbody, ?_, by decide, by decide⟩
  · subst hsig
    exact validRequest_of_mismatch hp (Ne.symm hne)
  · exact validRequest_of_mismatch (t := 1700000000) (by decide) (Ne.symm hbody)

/-- Witness for C8: the general tamper statement applied at the spec's example
inputs, discharging the changed-HMAC hypothesis with the concrete inequality
established by the theorem itself. -/
theorem validRequest_tamper_sensitivity_witness :
    validRequest 1700000000 "shh" "text=hello " "1700000000"
      (expectedSignature "shh" "1700000000" "text=hello") = false :=
  validRequest_tamper_sensitivity.1 1700000000 1700000000 "shh" "text=hello"
    "text=hello " "1700000000" (expectedSignature "shh" "1700000000" "text=hello")
    (by decide) rfl validRequest_tamper_sensitivity.2.1


/-! ## Support lemmas: byte ranges, base64url round trip, time arithmetic -/

/-- Every `Char` scalar value is below 0x110000. -/
theorem char_toNat_lt (c : Char) : c.toNat < 1114112 := by
  show c.val.toNat < 1114112
  rcases c.valid with h | ⟨h1, h2⟩ <;> omega

/-- UTF-8 encoding produces byte values. -/
theorem utf8Char_lt (c : Char) : ∀ x ∈ utf8Char c, x < 256 := by
  intro x hx
  have hc : c.toNat < 1114112 := char_toNat_lt c
  by_cases h1 : c.toNat < 128
  · simp [utf8Char, h1] at hx
    omega
  · by_cases h2 : c.toNat < 2048
    · simp [utf8Char, h1, h2] at hx
      rcases hx with rfl | rfl <;> omega
    · by_cases h3 : c.toNat < 65536
      · simp [utf8Char, h1, h2, h3] at hx
        rcases hx with rfl | rfl | rfl <;> omega
      · simp [utf8Char, h1, h2, h3] at hx
        rcases hx with rfl | rfl | rfl | rfl <;> omega

/-- String bytes are byte values. -/
theorem strBytes_lt (s : String) : ∀ x ∈ strBytes s, x < 256 := by
  intro x hx
  simp only [strBytes, List.mem_flatMap] at hx
  obtain ⟨c, -, hc⟩ := hx
  exact utf8Char_lt c x hc

/-- `b64Val` inverts `b64Char` on 6-bit values (finite check). -/
theorem b64Val_b64Char_fin : ∀ i : Fin 64, b64Val (b64Char i.val) = i.val := by decide

/-- `b64Val` inverts `b64Char` on 6-bit values. -/
theorem b64Val_b64Char (n : Nat) (h : n < 64) : b64Val (b64Char n) = n :=
  b64Val_b64Char_fin ⟨n, h⟩

/-- Decoding inverts unpadded base64url encoding on byte lists. -/
theorem b64uDecodeChars_b64uChars : ∀ bs : List Nat, (∀ x ∈ bs, x < 256) →
    b64uDecodeChars (b64uChars bs) = bs
  | [], _ => rfl
  | [a], h => by
    have ha : a < 256 := h a (by simp)
    simp only [b64uChars, b64uDecodeChars]
    rw [b64Val_b64Char _ (by omega), b64Val_b64Char _ (by omega)]
    simp only [List.cons.injEq, and_true]
    omega
  | [a, b], h => by
    have ha : a < 256 := h a (by simp)
    have hb : b < 256 := h b (by simp)
    simp only [b64uChars, b64uDecodeChars]
    rw [b64Val_b64Char _ (by omega), b64Val_b64Char _ (by omega), b64Val_b64Char _ (by omega)]
    simp only [List.cons.injEq, and_true]
    constructor <;> omega
  | a :: b :: c :: rest, h => by
    have ha : a < 256 := h a (by simp)
    have hb : b < 256 := h b (by simp)
    have hc : c < 256 := h c (by simp)
    have ih := b64uDecodeChars_b64uChars rest (fun x hx => h x (by simp [hx]))
    simp only [b64uChars, b64uDecodeChars]
    rw [b64Val_b64Char _ (by omega), b64Val_b64Char _ (by omega),
      b64Val_b64Char _ (by omega), b64Val_b64Char _ (by omega), ih]
    simp only [List.cons.injEq]
    refine ⟨by omega, by omega, by omega, trivial⟩

/-- Decoding inverts `b64u` on byte lists. -/
theorem b64uDecode_b64u (bs : List Nat) (h : ∀ x ∈ bs, x < 256) :
    b64uDecode (b64u bs) = bs :=
  b64uDecodeChars_b64uChars bs h

/-- No base64url alphabet character of a 6-bit value is a dot (finite check). -/
theorem b64Char_fin_ne_dot : ∀ i : Fin 64, b64Char i.val ≠ '.' := by decide

/-- `b64Char` never produces a dot. -/
theorem b64Char_ne_dot (n : Nat) : b64Char n ≠ '.' := by
  by_cases h : n < 64
  · exact b64Char_fin_ne_dot ⟨n, h⟩
  · have hlen :
        ("ABCDEFGHIJKLMNOPQRSTUVWXYZabcdefghijklmnopqrstuvwxyz0123456789-_".data).length ≤ n := by
      have h64 :
          ("ABCDEFGHIJKLMNOPQRSTUVWXYZabcdefghijklmnopqrstuvwxyz0123456789-_".data).length
            = 64 := rfl
      omega
    unfold b64Char
    rw [List.getD_eq_getElem?_getD, List.getElem?_eq_none hlen]
    decide

/-- base64url segments contain no dot. -/
theorem b64uChars_ne_dot : ∀ (bs : List Nat), ∀ ch ∈ b64uChars bs, ch ≠ '.'
  | [], ch, hch => by simp [b64uChars] at hch
  | [a], ch, hch => by
    simp only [b64uChars, List.mem_cons, List.not_mem_nil, or_false] at hch
    rcases hch with rfl | rfl <;> exact b64Char_ne_dot _
  | [a, b], ch, hch => by
    simp only [b64uChars, List.mem_cons, List.not_mem_nil, or_false] at hch
    rcases hch with rfl | rfl | rfl <;> exact b64Char_ne_dot _
  | a :: b :: c :: rest, ch, hch => by
    simp only [b64uChars, List.mem_cons] at hch
    rcases hch with rfl | rfl | rfl | rfl | hch
    · exact b64Char_ne_dot _
    · exact b64Char_ne_dot _
    · exact b64Char_ne_dot _
    · exact b64Char_ne_dot _
    · exact b64uChars_ne_dot rest ch hch

/-- A `b64u` string contains no dot. -/
theorem b64u_ne_dot (bs : List Nat) : ∀ ch ∈ (b64u bs).data, ch ≠ '.' :=
  b64uChars_ne_dot bs

/-- Adding a whole-second duration moves the seconds field by the duration's
second count and leaves the nanosecond field alone. -/
theorem goTimeAdd_sec_whole (t : GoTime) (d : Int) (h0 : 0 ≤ t.nsec)
    (h1 : t.nsec < 1000000000) (hw : Int.tmod d 1000000000 = 0) :
    (goTimeAdd t d).sec = t.sec + Int.tdiv d 1000000000 := by
  simp only [goTimeAdd, hw, add_zero]
  rw [if_neg (by omega), if_neg (by omega)]


/-- Inversion of a successful CreateJWT run: the key parsed, the signature was
produced, and the token is the signing string plus the base64url signature. -/
theorem createJWT_ok_inv (parseKey : String → Except String RSAKey) (now : GoTime)
    (g : TokenGenerator) (input : JWTInput)
    (hok : (createJWT parseKey now g input).isOk = true) :
    ∃ key sig, parseKey g.PrivateKey = .ok key ∧
      rs256Sign key (strBytes (signingString now g input)) = some sig ∧
      createJWT parseKey now g input =
        .ok (signingString now g input ++ "." ++ b64u sig) := by
  simp only [createJWT] at hok ⊢
  split at hok
  next err heq => exact Bool.noConfusion hok
  next key heq =>
    split at hok
    next heq2 => exact Bool.noConfusion hok
    next sig heq2 => exact ⟨key, sig, heq, heq2, by simp only [heq, heq2]⟩

/-- C4 (amended): for every configuration whose lifetime is a whole number of
seconds — as is the program's 24-hour configuration, `time.Hour * 24` — a
successful CreateJWT yields a claim payload with `exp - nbf` equal to the
configured lifetime in seconds, 86400 for the 24-hour configuration.  (For a
lifetime with a fractional second the code rounds through Unix-second
truncation and the equality fails; see the counterexample.) -/
theorem createJWT_lifetime_seconds (parseKey : String → Except String RSAKey)
    (now : GoTime) (g : TokenGenerator) (input : JWTInput)
    (hn0 : 0 ≤ now.nsec) (hn1 : now.nsec < 1000000000)
    (hwhole : Int.tmod g.Lifetime 1000000000 = 0)
    (hok : (createJWT parseKey now g input).isOk = true) :
    ∃ expv nbfv : Int,
      jsonLookup (claimsJson now g input) "exp" = some (.num expv) ∧
      jsonLookup (claimsJson now g input) "nbf" = some (.num nbfv) ∧
      expv - nbfv = Int.tdiv g.Lifetime 1000000000 ∧
      (g.Lifetime = 86400000000000 → expv - nbfv = 86400) := by
  refine ⟨(goTimeAdd now g.Lifetime).unix, now.unix, rfl, rfl, ?_, ?_⟩
  · show (goTimeAdd now g.Lifetime).sec - now.sec = _
    rw [goTimeAdd_sec_whole now g.Lifetime hn0 hn1 hwhole]
    ring
  · intro hl
    show (goTimeAdd now g.Lifetime).sec - now.sec = 86400
    rw [goTimeAdd_sec_whole now g.Lifetime hn0 hn1 hwhole, hl,
      (by decide : Int.tdiv 86400000000000 1000000000 = 86400)]
    ring

/-- Witness for C4 (amended) at the program's 24-hour configuration, with a
clock reading that has a nonzero nanosecond part. -/
theorem createJWT_lifetime_seconds_witness :
    (createJWT demoParseKey ⟨1700000000, 123456789⟩ (demoCfg 86400000000000) demoInput).isOk
      = true ∧
    (∃ expv nbfv : Int,
      jsonLookup (claimsJson ⟨1700000000, 123456789⟩ (demoCfg 86400000000000) demoInput) "exp"
        = some (.num expv) ∧
      jsonLookup (claimsJson ⟨1700000000, 123456789⟩ (demoCfg 86400000000000) demoInput) "nbf"
        = some (.num nbfv) ∧
      expv - nbfv = Int.tdiv (demoCfg 86400000000000).Lifetime 1000000000 ∧
      ((demoCfg 86400000000000).Lifetime = 86400000000000 → expv - nbfv = 86400)) := by
  have hok : (createJWT demoParseKey ⟨1700000000, 123456789⟩ (demoCfg 86400000000000)
      demoInput).isOk = true := rfl
  exact ⟨hok, createJWT_lifetime_seconds demoParseKey ⟨1700000000, 123456789⟩
    (demoCfg 86400000000000) demoInput (by decide) (by decide) (by decide) hok⟩

/-- Counterexample to C4 as stated: with a 1.5-second lifetime (a legal
`time.Duration`) and the clock at 1700000000s + 0.6s, CreateJWT succeeds but
the payload has `exp - nbf = 2` seconds, which is not the configured lifetime
of 1.5e9 nanoseconds — the claim's "for every TokenGenerator configuration"
fails for lifetimes that are not whole seconds. -/
theorem createJWT_lifetime_counterexample :
    (createJWT demoParseKey ⟨1700000000, 600000000⟩ (demoCfg 1500000000) demoInput).isOk
      = true ∧
    jsonLookup (claimsJson ⟨1700000000, 600000000⟩ (demoCfg 1500000000) demoInput) "exp"
      = some (.num 1700000002) ∧
    jsonLookup (claimsJson ⟨1700000000, 600000000⟩ (demoCfg 1500000000) demoInput) "nbf"
      = some (.num 1700000000) ∧
    ((1700000002 : Int) - 1700000000) * 1000000000 ≠ (demoCfg 1500000000).Lifetime :=
  ⟨rfl, rfl, rfl, by decide⟩

/-- C5: on every successful CreateJWT run the token's payload segment decodes
to the serialized claim map, which contains exactly the fields
aud, context, exp, iss, nbf, room, sub (in Go's sorted map-key order), whose
`context` contains exactly `user` (with exactly id, name, avatar) and `group`;
`sub` and `group` equal the tenant name, `room` equals the room claim input,
and the user fields equal the corresponding inputs. -/
theorem createJWT_payload_structure (parseKey : String → Except String RSAKey)
    (now : GoTime) (g : TokenGenerator) (input : JWTInput)
    (hok : (createJWT parseKey now g input).isOk = true) :
    ∃ sigSeg : String,
      createJWT parseKey now g input =
        .ok (b64u (strBytes (jsonSer (headerJson g))) ++ "." ++
             b64u (strBytes (jsonSer (claimsJson now g input))) ++ "." ++ sigSeg) ∧
      b64uDecode (b64u (strBytes (jsonSer (claimsJson now g input)))) =
        strBytes (jsonSer (claimsJson now g input)) ∧
      jsonKeys (claimsJson now g input) = ["aud", "context", "exp", "iss", "nbf", "room", "sub"] ∧
      jsonLookup (claimsJson now g input) "iss" = some (.str g.Issuer) ∧
      jsonLookup (claimsJson now g input) "nbf" = some (.num now.unix) ∧
      jsonLookup (claimsJson now g input) "exp" = some (.num (goTimeAdd now g.Lifetime).unix) ∧
      jsonLookup (claimsJson now g input) "sub" = some (.str input.TenantName) ∧
      jsonLookup (claimsJson now g input) "aud" = some (.str g.Audience) ∧
      jsonLookup (claimsJson now g input) "room" = some (.str input.RoomClaim) ∧
      jsonLookup (claimsJson now g input) "context" = some (contextJson input) ∧
      jsonKeys (contextJson input) = ["user", "group"] ∧
      jsonLookup (contextJson input) "user" =
        some (.obj [("id", .str input.UserID), ("name", .str input.UserName),
                    ("avatar", .str input.AvatarURL)]) ∧
      jsonLookup (contextJson input) "group" = some (.str input.TenantName) := by
  obtain ⟨key, sig, hpk, hsig, heq⟩ := createJWT_ok_inv parseKey now g input hok
  exact ⟨b64u sig, by rw [heq]; exact rfl, b64uDecode_b64u _ (strBytes_lt _), rfl, rfl, rfl, rfl, rfl,
    rfl, rfl, rfl, rfl, rfl, rfl⟩

/-- Witness for C5 at the demo configuration: CreateJWT succeeds and the claim
map's field list is exactly aud, context, exp, iss, nbf, room, sub. -/
theorem createJWT_payload_structure_witness :
    (createJWT demoParseKey ⟨1700000000, 0⟩ (demoCfg 86400000000000) demoInput).isOk = true ∧
    jsonKeys (claimsJson ⟨1700000000, 0⟩ (demoCfg 86400000000000) demoInput) =
      ["aud", "context", "exp", "iss", "nbf", "room", "sub"] := by
  have hok : (createJWT demoParseKey ⟨1700000000, 0⟩ (demoCfg 86400000000000)
      demoInput).isOk = true := rfl
  obtain ⟨s, -, -, hkeys, -⟩ := createJWT_payload_structure demoParseKey ⟨1700000000, 0⟩
    (demoCfg 86400000000000) demoInput hok
  exact ⟨hok, hkeys⟩

/-- C9 (amended): two CreateJWT claim payloads for identical inputs and
configuration (with the program's whole-second lifetime) and clock readings
that differ in their Unix-second part differ in nbf and in exp, and agree on
room, sub, aud, iss, and the whole context object.  (Clock readings that
differ only below one second produce identical payloads; see the
counterexample.) -/
theorem claims_clock_variation (g : TokenGenerator) (input : JWTInput) (t1 t2 : GoTime)
    (h10 : 0 ≤ t1.nsec) (h11 : t1.nsec < 1000000000)
    (h20 : 0 ≤ t2.nsec) (h21 : t2.nsec < 1000000000)
    (hsec : t1.sec ≠ t2.sec)
    (hwhole : Int.tmod g.Lifetime 1000000000 = 0) :
    jsonLookup (claimsJson t1 g input) "nbf" ≠ jsonLookup (claimsJson t2 g input) "nbf" ∧
    jsonLookup (claimsJson t1 g input) "exp" ≠ jsonLookup (claimsJson t2 g input) "exp" ∧
    jsonLookup (claimsJson t1 g input) "room" = jsonLookup (claimsJson t2 g input) "room" ∧
    jsonLookup (claimsJson t1 g input) "sub" = jsonLookup (claimsJson t2 g input) "sub" ∧
    jsonLookup (claimsJson t1 g input) "aud" = jsonLookup (claimsJson t2 g input) "aud" ∧
    jsonLookup (claimsJson t1 g input) "iss" = jsonLookup (claimsJson t2 g input) "iss" ∧
    jsonLookup (claimsJson t1 g input) "context" = jsonLookup (claimsJson t2 g input) "context" := by
  refine ⟨?_, ?_, rfl, rfl, rfl, rfl, rfl⟩
  · intro hcon
    have hcon' : some (Json.num t1.sec) = some (Json.num t2.sec) := hcon
    exact hsec (Json.num.inj (Option.some.inj hcon'))
  · intro hcon
    have hcon' : some (Json.num (goTimeAdd t1 g.Lifetime).sec) =
        some (Json.num (goTimeAdd t2 g.Lifetime).sec) := hcon
    have h := Json.num.inj (Option.some.inj hcon')
    have e1 := goTimeAdd_sec_whole t1 g.Lifetime h10 h11 hwhole
    have e2 := goTimeAdd_sec_whole t2 g.Lifetime h20 h21 hwhole
    apply hsec
    omega

/-- Witness for C9 (amended): clock readings one second apart yield payloads
differing in nbf. -/
theorem claims_clock_variation_witness :
    jsonLookup (claimsJson ⟨1700000000, 0⟩ (demoCfg 86400000000000) demoInput) "nbf" ≠
      jsonLookup (claimsJson ⟨1700000001, 0⟩ (demoCfg 86400000000000) demoInput) "nbf" :=
  (claims_clock_variation (demoCfg 86400000000000) demoInput ⟨1700000000, 0⟩ ⟨1700000001, 0⟩
    (by decide) (by decide) (by decide) (by decide) (by decide) (by decide)).1

/-- Counterexample to C9 as stated: two CreateJWT calls with identical inputs
and configuration whose clock readings differ by half a second — distinct
readings — produce identical claim payloads (indeed identical tokens), so the
payloads do not differ in nbf and exp. -/
theorem claims_clock_counterexample :
    (⟨1700000000, 0⟩ : GoTime) ≠ (⟨1700000000, 500000000⟩ : GoTime) ∧
    claimsJson ⟨1700000000, 0⟩ (demoCfg 86400000000000) demoInput =
      claimsJson ⟨1700000000, 500000000⟩ (demoCfg 86400000000000) demoInput ∧
    createJWT demoParseKey ⟨1700000000, 0⟩ (demoCfg 86400000000000) demoInput =
      createJWT demoParseKey ⟨1700000000, 500000000⟩ (demoCfg 86400000000000) demoInput ∧
    (createJWT demoParseKey ⟨1700000000, 0⟩ (demoCfg 86400000000000) demoInput).isOk = true := by
  refine ⟨?_, rfl, rfl, rfl⟩
  intro h
  simp only [GoTime.mk.injEq] at h
  exact absurd h.2 (by decide)

/-- C7 (amended): the private-key blob is decoded and parsed inside every
CreateJWT call — a parse failure surfaces as that call's error value — while
process startup (`main`'s construction of the token generator) performs no
decoding or validation at all and simply stores the raw configured string. -/
theorem createJWT_key_parse_per_call (parseKey : String → Except String RSAKey)
    (now : GoTime) (g : TokenGenerator) (input : JWTInput) (err : String)
    (hfail : parseKey g.PrivateKey = .error err) :
    createJWT parseKey now g input = .error err ∧
    ∀ app : AppConfig, (mainTokenGenerator app).PrivateKey = app.jitsiTokenSigningKey := by
  constructor
  · simp only [createJWT, hfail]
  · intro app
    rfl

/-- Witness for C7 (amended): a key blob the parse pipeline rejects makes the
per-call CreateJWT return that error. -/
theorem createJWT_key_parse_per_call_witness :
    demoParseKey (mainTokenGenerator ⟨"not-a-key", "iss", "aud", "kid1"⟩).PrivateKey =
      .error "not a valid data url" ∧
    createJWT demoParseKey ⟨1700000000, 0⟩ (mainTokenGenerator ⟨"not-a-key", "iss", "aud", "kid1"⟩)
      demoInput = .error "not a valid data url" := by
  have hfail : demoParseKey (mainTokenGenerator ⟨"not-a-key", "iss", "aud", "kid1"⟩).PrivateKey =
      .error "not a valid data url" := rfl
  exact ⟨hfail, (createJWT_key_parse_per_call demoParseKey ⟨1700000000, 0⟩
    (mainTokenGenerator ⟨"not-a-key", "iss", "aud", "kid1"⟩) demoInput
    "not a valid data url" hfail).1⟩

/-- Counterexample to C7 as stated: startup with an undecodable key blob
succeeds and stores the raw string (no decode, no abort), the decode failure
is instead reported by the CreateJWT call made per request, and the same
startup path with a parseable blob makes the very same call succeed — so the
decode/parse demonstrably happens inside each token creation, not once at
process initialization. -/
theorem createJWT_startup_counterexample :
    (mainTokenGenerator ⟨"not-a-key", "iss", "aud", "kid1"⟩).PrivateKey = "not-a-key" ∧
    createJWT demoParseKey ⟨1700000000, 0⟩
      (mainTokenGenerator ⟨"not-a-key", "iss", "aud", "kid1"⟩) demoInput =
      .error "not a valid data url" ∧
    (createJWT demoParseKey ⟨1700000000, 0⟩
      (mainTokenGenerator ⟨"data:;base64,demo", "iss", "aud", "kid1"⟩) demoInput).isOk = true :=
  ⟨rfl, rfl, rfl⟩

/-- C10: for every meeting produced by MeetingGenerator.New, when the team's
server configuration has AuthenticatedURLSupport, `AuthenticatedURL` returns —
on token-generation success — exactly the meeting URL with "?jwt=" and the
signed token appended; when AuthenticatedURLSupport is false it returns the
plain meeting URL unchanged with no error, for all user inputs. -/
theorem meetingNew_authenticated_url (getServerCfg : String → Except String ServerCfg)
    (createTok : JWTInput → Except String String) (randomRoom teamID teamName : String)
    (srv : ServerCfg) (mtg : Meeting)
    (hcfg : getServerCfg teamID = .ok srv)
    (hmtg : meetingNew getServerCfg createTok randomRoom teamID teamName = .ok mtg) :
    (srv.AuthenticatedURLSupport = true →
      ∀ userID userName avatarURL jwt,
        createTok ⟨teamID, teamName, mtg.RoomName, userID, userName, avatarURL⟩ = .ok jwt →
        mtg.AuthenticatedURL userID userName avatarURL = .ok (mtg.URL ++ "?jwt=" ++ jwt)) ∧
    (srv.AuthenticatedURLSupport = false →
      ∀ userID userName avatarURL,
        mtg.AuthenticatedURL userID userName avatarURL = .ok mtg.URL) := by
  simp only [meetingNew, hcfg] at hmtg
  have hmtg' := Except.ok.inj hmtg
  subst hmtg'
  constructor
  · intro hsupp userID userName avatarURL jwt htok
    simp only [hsupp, if_true] at htok ⊢
    simp only [htok]
  · intro hsupp userID userName avatarURL
    simp only [hsupp, if_false, Bool.false_eq_true] at *


/-- Witness for C10: for the demo team (authenticated URLs supported), the
meeting's AuthenticatedURL is the meeting URL with "?jwt=" and the token
appended. -/
theorem meetingNew_authenticated_url_witness :
    demoMeeting.AuthenticatedURL "U1" "Alice" "https://example.com/a.png" =
      .ok (demoMeeting.URL ++ "?jwt=" ++ "tok-quick") :=
  (meetingNew_authenticated_url demoGetCfg demoCreateTok "quick" "T123" "Acme"
    ⟨"https://meet.example.com", false, true⟩ demoMeeting rfl rfl).1 rfl
    "U1" "Alice" "https://example.com/a.png" "tok-quick" rfl

/-! ## RSA correctness: powMod computes modular powers, and the RSA
permutation round-trips for a valid two-prime key -/

/-- `powModAux` computes `a ^ e % n` whenever the fuel covers the exponent. -/
theorem powModAux_eq (n : Nat) : ∀ (fuel e a : Nat), e ≤ fuel →
    powModAux n a fuel e = a ^ e % n := by
  intro fuel
  induction fuel with
  | zero =>
    intro e a he
    have h0 : e = 0 := by omega
    subst h0
    simp [powModAux]
  | succ fuel ih =>
    intro e a he
    by_cases h0 : e = 0
    · subst h0
      simp [powModAux]
    · have hdiv : e / 2 ≤ fuel := by
        have hlt : e / 2 < e := Nat.div_lt_self (Nat.pos_of_ne_zero h0) (by norm_num)
        omega
      have hr := ih (e / 2) (a * a % n) hdiv
      simp only [powModAux]
      rw [if_neg h0, hr, ← Nat.pow_mod]
      by_cases hpar : e % 2 = 1
      · rw [if_pos hpar, Nat.mod_mul_mod]
        have h2 : (a * a) ^ (e / 2) * a = a ^ (2 * (e / 2) + 1) := by ring
        have h3 : 2 * (e / 2) + 1 = e := by omega
        rw [h2, h3]
      · rw [if_neg hpar]
        have h2 : (a * a) ^ (e / 2) = a ^ (2 * (e / 2)) := by ring
        have h3 : 2 * (e / 2) = e := by omega
        rw [h2, h3]

/-- `powMod` computes `a ^ e % n`. -/
theorem powMod_eq (a e n : Nat) : powMod a e n = a ^ e % n := by
  unfold powMod
  rw [powModAux_eq n e e (a % n) (Nat.le_refl e), ← Nat.pow_mod]

/-- Fermat's little theorem for exponents of the form `1 + (P-1)·t`. -/
theorem pow_one_add_mult_mod_prime (P : Nat) (hP : P.Prime) (t m : Nat) :
    m ^ (1 + (P - 1) * t) % P = m % P := by
  haveI := Fact.mk hP
  have hcast : ((m ^ (1 + (P - 1) * t) : Nat) : ZMod P) = ((m : Nat) : ZMod P) := by
    push_cast
    by_cases hz : (m : ZMod P) = 0
    · rw [hz, zero_pow (by omega)]
    · rw [pow_add, pow_mul, ZMod.pow_card_sub_one_eq_one hz, one_pow, pow_one, mul_one]
  exact (ZMod.natCast_eq_natCast_iff _ _ _).mp hcast

/-- The RSA permutation round-trips on residues below the modulus, for a
two-prime modulus with `e·d ≡ 1` modulo `(p-1)(q-1)`. -/
theorem rsa_roundtrip (p q e d m : Nat) (hp : p.Prime) (hq : q.Prime) (hne : p ≠ q)
    (hed : (e * d) % ((p - 1) * (q - 1)) = 1 % ((p - 1) * (q - 1)))
    (hm : m < p * q) :
    (m ^ d % (p * q)) ^ e % (p * q) = m := by
  have hp2 := hp.two_le
  have hq2 := hq.two_le
  have hN2 : 2 ≤ (p - 1) * (q - 1) := by
    rcases Nat.lt_or_ge p 3 with hc | hc
    · have hp' : p = 2 := by omega
      have hq3 : 3 ≤ q := by
        rcases Nat.lt_or_ge q 3 with hc' | hc'
        · exfalso; apply hne; omega
        · exact hc'
      have h2q : 2 ≤ q - 1 := by omega
      calc 2 ≤ q - 1 := h2q
        _ = (p - 1) * (q - 1) := by rw [hp']; norm_num
    · have h1 : 2 ≤ p - 1 := by omega
      have h2 : 1 ≤ q - 1 := by omega
      calc 2 = 2 * 1 := by norm_num
        _ ≤ (p - 1) * (q - 1) := Nat.mul_le_mul h1 h2
  have hed1 : (e * d) % ((p - 1) * (q - 1)) = 1 := by
    have h1N : 1 % ((p - 1) * (q - 1)) = 1 := Nat.mod_eq_of_lt (by omega)
    rw [h1N] at hed
    exact hed
  obtain ⟨k, hk⟩ : ∃ k, e * d = 1 + (p - 1) * (q - 1) * k := by
    refine ⟨e * d / ((p - 1) * (q - 1)), ?_⟩
    have := Nat.div_add_mod (e * d) ((p - 1) * (q - 1))
    omega
  have hmp : m ^ (e * d) % p = m % p := by
    have hsplit : e * d = 1 + (p - 1) * ((q - 1) * k) := by rw [hk]; ring
    rw [hsplit]
    exact pow_one_add_mult_mod_prime p hp ((q - 1) * k) m
  have hmq : m ^ (e * d) % q = m % q := by
    have hsplit : e * d = 1 + (q - 1) * ((p - 1) * k) := by rw [hk]; ring
    rw [hsplit]
    exact pow_one_add_mult_mod_prime q hq ((p - 1) * k) m
  have hco : Nat.Coprime p q := (Nat.coprime_primes hp hq).mpr hne
  have hmn : m ^ (e * d) % (p * q) = m % (p * q) :=
    (Nat.modEq_and_modEq_iff_modEq_mul hco).mp ⟨hmp, hmq⟩
  calc (m ^ d % (p * q)) ^ e % (p * q)
      = (m ^ d) ^ e % (p * q) := by rw [← Nat.pow_mod]
    _ = m ^ (d * e) % (p * q) := by rw [← pow_mul]
    _ = m ^ (e * d) % (p * q) := by rw [mul_comm d e]
    _ = m % (p * q) := hmn
    _ = m := Nat.mod_eq_of_lt hm

/-! ## Byte-length and radix lemmas for the PKCS#1 v1.5 pipeline -/

/-- Big-endian accumulation is bounded by the radix power. -/
theorem osToNat_foldl_lt : ∀ (bs : List Nat), (∀ x ∈ bs, x < 256) → ∀ acc : Nat,
    List.foldl (fun a b => a * 256 + b) acc bs < (acc + 1) * 256 ^ bs.length
  | [], _, acc => by simp
  | b :: tl, h, acc => by
    have hb : b < 256 := h b (by simp)
    have ih := osToNat_foldl_lt tl (fun x hx => h x (by simp [hx])) (acc * 256 + b)
    simp only [List.foldl_cons, List.length_cons]
    have h1 : acc * 256 + b + 1 ≤ (acc + 1) * 256 := by omega
    calc List.foldl (fun a b => a * 256 + b) (acc * 256 + b) tl
        < (acc * 256 + b + 1) * 256 ^ tl.length := ih
      _ ≤ ((acc + 1) * 256) * 256 ^ tl.length := Nat.mul_le_mul_right _ h1
      _ = (acc + 1) * 256 ^ (tl.length + 1) := by ring

/-- A big-endian byte list denotes a value below `256 ^ length`. -/
theorem osToNat_lt (bs : List Nat) (h : ∀ x ∈ bs, x < 256) :
    osToNat bs < 256 ^ bs.length := by
  have := osToNat_foldl_lt bs h 0
  simpa [osToNat] using this

/-- `natToBytes` always produces exactly `k` bytes. -/
theorem natToBytes_length : ∀ (k n : Nat), (natToBytes k n).length = k
  | 0, _ => rfl
  | k + 1, n => by simp [natToBytes, natToBytes_length k (n / 256)]

/-- `natToBytes` produces byte values. -/
theorem natToBytes_lt : ∀ (k n : Nat), ∀ x ∈ natToBytes k n, x < 256
  | 0, n, x, hx => by simp [natToBytes] at hx
  | k + 1, n, x, hx => by
    simp only [natToBytes, List.mem_append, List.mem_singleton] at hx
    rcases hx with hx | rfl
    · exact natToBytes_lt k (n / 256) x hx
    · omega

/-- `osToNat` inverts `natToBytes` on values that fit in `k` bytes. -/
theorem osToNat_natToBytes : ∀ (k n : Nat), n < 256 ^ k → osToNat (natToBytes k n) = n
  | 0, n, h => by
    have hn : n = 0 := by simpa using h
    subst hn
    rfl
  | k + 1, n, h => by
    have hdiv : n / 256 < 256 ^ k := by
      rw [Nat.div_lt_iff_lt_mul (by norm_num)]
      rw [← pow_succ]
      exact h
    have ih := osToNat_natToBytes k (n / 256) hdiv
    simp only [natToBytes, osToNat, List.foldl_append, List.foldl_cons, List.foldl_nil]
    rw [show List.foldl (fun a b => a * 256 + b) 0 (natToBytes k (n / 256))
        = osToNat (natToBytes k (n / 256)) from rfl, ih]
    omega

/-- SHA-256 compression preserves the 8-word state length. -/
theorem compressBlock_length (hs b : List Nat) : (compressBlock hs b).length = 8 := by
  simp only [compressBlock, List.length_cons, List.length_nil]

/-- Folding SHA-256 compression over any block list keeps 8 words. -/
theorem foldl_compress_length : ∀ (blocks : List (List Nat)) (hs : List Nat),
    hs.length = 8 → (blocks.foldl compressBlock hs).length = 8
  | [], _, h => h
  | b :: tl, hs, _ => foldl_compress_length tl (compressBlock hs b) (compressBlock_length hs b)

/-- Serializing words big-endian quadruples the length. -/
theorem flatMap_be32_length : ∀ (l : List Nat), (l.flatMap be32).length = 4 * l.length
  | [] => rfl
  | x :: tl => by
    have ih := flatMap_be32_length tl
    simp only [List.flatMap_cons, List.length_append, ih, List.length_cons, be32]
    simp only [List.length_cons, List.length_nil]
    omega

/-- A SHA-256 digest is 32 bytes long. -/
theorem sha256_length (msg : List Nat) : (sha256 msg).length = 32 := by
  unfold sha256
  rw [flatMap_be32_length, foldl_compress_length (toBlocks (sha256Pad msg)) sha256H0 rfl]

/-- A SHA-256 digest consists of byte values. -/
theorem sha256_lt (msg : List Nat) : ∀ x ∈ sha256 msg, x < 256 := by
  intro x hx
  unfold sha256 at hx
  simp only [List.mem_flatMap] at hx
  obtain ⟨w, -, hw⟩ := hx
  simp only [be32, List.mem_cons, List.not_mem_nil, or_false] at hw
  rcases hw with rfl | rfl | rfl | rfl <;> omega

/-- The DigestInfo prefix consists of byte values. -/
theorem sha256DigestInfo_lt : ∀ y ∈ sha256DigestInfo, y < 256 := by decide

/-- `natBitLenAux` agrees with `Nat.log2` once the fuel covers the input. -/
theorem natBitLenAux_eq : ∀ (fuel n : Nat), n ≤ fuel →
    natBitLenAux fuel n = if n = 0 then 0 else Nat.log2 n + 1
  | 0, n, h => by
    have hn : n = 0 := by omega
    subst hn
    rfl
  | fuel + 1, n, h => by
    by_cases h0 : n = 0
    · subst h0
      rfl
    · have hlt : n / 2 < n := Nat.div_lt_self (Nat.pos_of_ne_zero h0) (by norm_num)
      have ih := natBitLenAux_eq fuel (n / 2) (by omega)
      simp only [natBitLenAux, if_neg h0, ih]
      by_cases h1 : n / 2 = 0
      · have hn1 : n = 1 := by omega
        subst hn1
        simp [Nat.log2]
      · rw [if_neg h1]
        conv_rhs => rw [Nat.log2]
        rw [if_pos (show 2 ≤ n by omega)]

/-- `natBitLen` is the usual bit length. -/
theorem natBitLen_eq (n : Nat) : natBitLen n = if n = 0 then 0 else Nat.log2 n + 1 :=
  natBitLenAux_eq n n (Nat.le_refl n)

/-- The modulus dominates `256 ^ (k - 1)` for its own byte length `k`. -/
theorem pow_rsaByteLen_le (n : Nat) (h : n ≠ 0) : 256 ^ (rsaByteLen n - 1) ≤ n := by
  unfold rsaByteLen
  rw [natBitLen_eq, if_neg h]
  have h8 : (Nat.log2 n + 1 + 7) / 8 - 1 = Nat.log2 n / 8 := by omega
  rw [h8]
  calc (256:Nat) ^ (Nat.log2 n / 8) = 2 ^ (8 * (Nat.log2 n / 8)) := by
        rw [show (256:Nat) = 2 ^ 8 from by norm_num, ← pow_mul]
    _ ≤ 2 ^ Nat.log2 n := Nat.pow_le_pow_right (by norm_num) (by omega)
    _ ≤ n := Nat.log2_self_le h

/-- The modulus fits in its own byte length. -/
theorem lt_pow_rsaByteLen (n : Nat) (h : n ≠ 0) : n < 256 ^ rsaByteLen n := by
  unfold rsaByteLen
  rw [natBitLen_eq, if_neg h]
  have h8 : Nat.log2 n + 1 ≤ 8 * ((Nat.log2 n + 1 + 7) / 8) := by omega
  calc n < 2 ^ (Nat.log2 n + 1) := Nat.lt_log2_self
    _ ≤ 2 ^ (8 * ((Nat.log2 n + 1 + 7) / 8)) := Nat.pow_le_pow_right (by norm_num) h8
    _ = 256 ^ ((Nat.log2 n + 1 + 7) / 8) := by
        rw [show (256:Nat) = 2 ^ 8 from by norm_num, ← pow_mul]

/-- Inversion of a successful EMSA-PKCS1-v1_5 encoding: the encoded message is
`k` bytes of byte values, the modulus byte length is at least 62, and — thanks
to the leading zero byte — its value is below `256 ^ (k - 1)`. -/
theorem emsa_some (k : Nat) (msg em : List Nat) (h : emsaPkcs1v15 k msg = some em) :
    em.length = k ∧ 62 ≤ k ∧ (∀ x ∈ em, x < 256) ∧ osToNat em < 256 ^ (k - 1) := by
  have hdi19 : sha256DigestInfo.length = 19 := rfl
  have hsh32 := sha256_length msg
  have hlen : (sha256DigestInfo ++ sha256 msg).length = 51 := by
    simp [List.length_append, hdi19, hsh32]
  simp only [emsaPkcs1v15] at h
  rw [hlen] at h
  split at h
  · exact absurd h (by simp)
  · next hk =>
    have hk62 : 62 ≤ k := by omega
    have hem := (Option.some.inj h).symm
    subst hem
    refine ⟨?_, hk62, ?_, ?_⟩
    · simp only [List.length_cons, List.length_append, List.length_replicate, hdi19, hsh32]
      omega
    · intro x hx
      simp only [List.mem_cons, List.mem_append, List.mem_replicate] at hx
      rcases hx with rfl | rfl | ⟨-, rfl⟩ | rfl | hx | hx
      · omega
      · omega
      · omega
      · omega
      · exact sha256DigestInfo_lt x hx
      · exact sha256_lt msg x hx
    · have hrest : (1 :: (List.replicate (k - 51 - 3) 255 ++
          0 :: (sha256DigestInfo ++ sha256 msg))).length = k - 1 := by
        simp only [List.length_cons, List.length_append, List.length_replicate, hdi19, hsh32]
        omega
      have hbytes : ∀ x ∈ (1 :: (List.replicate (k - 51 - 3) 255 ++
          0 :: (sha256DigestInfo ++ sha256 msg))), x < 256 := by
        intro x hx
        simp only [List.mem_cons, List.mem_append, List.mem_replicate] at hx
        rcases hx with rfl | ⟨-, rfl⟩ | rfl | hx | hx
        · omega
        · omega
        · omega
        · exact sha256DigestInfo_lt x hx
        · exact sha256_lt msg x hx
      have h0 : osToNat (0 :: (1 :: (List.replicate (k - 51 - 3) 255 ++
          0 :: (sha256DigestInfo ++ sha256 msg)))) =
          osToNat (1 :: (List.replicate (k - 51 - 3) 255 ++
          0 :: (sha256DigestInfo ++ sha256 msg))) := rfl
      rw [h0, ← hrest]
      exact osToNat_lt _ hbytes

/-! ## RS256 verification succeeds on RS256 signatures under a valid key -/

/-- RSASSA-PKCS1-v1_5/SHA-256 verification accepts the signature `rs256Sign`
produces, for any two-prime key with `e·d ≡ 1 (mod (p-1)(q-1))`. -/
theorem rs256_verify_sign (key : RSAKey) (p q : Nat) (hp : p.Prime) (hq : q.Prime)
    (hne : p ≠ q) (hn : key.n = p * q)
    (hed : (key.e * key.d) % ((p - 1) * (q - 1)) = 1 % ((p - 1) * (q - 1)))
    (msg sig : List Nat) (hsig : rs256Sign key msg = some sig) :
    rs256Verify key.n key.e msg sig = true := by
  have hn0 : key.n ≠ 0 := by
    rw [hn]
    have := hp.two_le
    have := hq.two_le
    positivity
  simp only [rs256Sign] at hsig
  split at hsig
  · exact absurd hsig (by simp)
  · next em hem =>
    have hsig' := (Option.some.inj hsig).symm
    subst hsig'
    obtain ⟨hlen, hk62, hbytes, hemlt⟩ := emsa_some (rsaByteLen key.n) msg em hem
    have hemn : osToNat em < key.n := by
      calc osToNat em < 256 ^ (rsaByteLen key.n - 1) := hemlt
        _ ≤ key.n := pow_rsaByteLen_le key.n hn0
    have hsiglt : powMod (osToNat em) key.d key.n < 256 ^ rsaByteLen key.n := by
      rw [powMod_eq]
      calc osToNat em ^ key.d % key.n < key.n :=
            Nat.mod_lt _ (Nat.pos_of_ne_zero hn0)
        _ < 256 ^ rsaByteLen key.n := lt_pow_rsaByteLen key.n hn0
    simp only [rs256Verify]
    rw [hem]
    have h1 : (natToBytes (rsaByteLen key.n) (powMod (osToNat em) key.d key.n)).length
        = rsaByteLen key.n := natToBytes_length _ _
    have h2 : osToNat (natToBytes (rsaByteLen key.n) (powMod (osToNat em) key.d key.n))
        = powMod (osToNat em) key.d key.n := osToNat_natToBytes _ _ hsiglt
    have h3 : powMod (powMod (osToNat em) key.d key.n) key.e key.n = osToNat em := by
      rw [powMod_eq, powMod_eq]
      rw [hn] at hemn ⊢
      exact rsa_roundtrip p q key.e key.d (osToNat em) hp hq hne hed hemn
    simp only [Bool.and_eq_true, beq_iff_eq]
    exact ⟨h1, by rw [h2, h3]⟩

/-- C6: on every successful CreateJWT run under a well-formed two-prime RSA
key, the produced token is a three-segment dot-delimited JWT (each segment is
dot-free base64url), the header segment decodes to the header JSON whose `alg`
is RS256 and whose `kid` is the configured key identifier, and the signature
segment decodes to an RSASSA-PKCS1-v1_5/SHA-256 signature over the signing
string that verifies against the public key `(n, e)` matching the configured
private key. -/
theorem createJWT_rs256_token (parseKey : String → Except String RSAKey)
    (now : GoTime) (g : TokenGenerator) (input : JWTInput)
    (p q : Nat) (key : RSAKey)
    (hpk : parseKey g.PrivateKey = .ok key)
    (hp : p.Prime) (hq : q.Prime) (hne : p ≠ q) (hn : key.n = p * q)
    (hed : (key.e * key.d) % ((p - 1) * (q - 1)) = 1 % ((p - 1) * (q - 1)))
    (hok : (createJWT parseKey now g input).isOk = true) :
    ∃ sigBytes : List Nat,
      createJWT parseKey now g input =
        .ok (b64u (strBytes (jsonSer (headerJson g))) ++ "." ++
             b64u (strBytes (jsonSer (claimsJson now g input))) ++ "." ++ b64u sigBytes) ∧
      (∀ ch ∈ (b64u (strBytes (jsonSer (headerJson g)))).data, ch ≠ '.') ∧
      (∀ ch ∈ (b64u (strBytes (jsonSer (claimsJson now g input)))).data, ch ≠ '.') ∧
      (∀ ch ∈ (b64u sigBytes).data, ch ≠ '.') ∧
      b64uDecode (b64u (strBytes (jsonSer (headerJson g)))) =
        strBytes (jsonSer (headerJson g)) ∧
      jsonLookup (headerJson g) "alg" = some (.str "RS256") ∧
      jsonLookup (headerJson g) "kid" = some (.str g.Kid) ∧
      jsonLookup (headerJson g) "typ" = some (.str "JWT") ∧
      b64uDecode (b64u sigBytes) = sigBytes ∧
      rs256Verify key.n key.e (strBytes (signingString now g input)) sigBytes = true := by
  obtain ⟨key', sig, hpk', hsig, heq⟩ := createJWT_ok_inv parseKey now g input hok
  rw [hpk] at hpk'
  have hkey : key = key' := Except.ok.inj hpk'
  subst hkey
  have hsigbytes : ∀ x ∈ sig, x < 256 := by
    have hs := hsig
    simp only [rs256Sign] at hs
    split at hs
    · exact absurd hs (by simp)
    · next em hem =>
      have h := (Option.some.inj hs).symm
      subst h
      exact natToBytes_lt _ _
  exact ⟨sig, by rw [heq]; exact rfl,
    b64u_ne_dot _, b64u_ne_dot _, b64u_ne_dot _,
    b64uDecode_b64u _ (strBytes_lt _), rfl, rfl, rfl,
    b64uDecode_b64u _ hsigbytes,
    rs256_verify_sign key p q hp hq hne hn hed _ sig hsig⟩


theorem mersenne127_prime : Nat.Prime (2 ^ 127 - 1) :=
  lucas_lehmer_sufficiency 127 (by norm_num) (by norm_num)

theorem mersenne521_prime : Nat.Prime (2 ^ 521 - 1) :=
  lucas_lehmer_sufficiency 521 (by norm_num) (by norm_num)

/-- Witness for C6: under the 648-bit Mersenne-prime RSA key, CreateJWT
succeeds, the token splits into the three expected segments, and the signature
segment verifies against the matching public key. -/
theorem createJWT_rs256_token_witness :
    (createJWT mersenneParseKey ⟨1700000000, 0⟩ mersenneCfg demoInput).isOk = true ∧
    (∃ sigBytes : List Nat,
      createJWT mersenneParseKey ⟨1700000000, 0⟩ mersenneCfg demoInput =
        .ok (b64u (strBytes (jsonSer (headerJson mersenneCfg))) ++ "." ++
             b64u (strBytes (jsonSer (claimsJson ⟨1700000000, 0⟩ mersenneCfg demoInput))) ++
             "." ++ b64u sigBytes) ∧
      rs256Verify mersenneKey.n mersenneKey.e
        (strBytes (signingString ⟨1700000000, 0⟩ mersenneCfg demoInput)) sigBytes = true) := by
  have hok : (createJWT mersenneParseKey ⟨1700000000, 0⟩ mersenneCfg demoInput).isOk
      = true := rfl
  obtain ⟨sigBytes, htok, -, -, -, -, -, -, -, -, hver⟩ :=
    createJWT_rs256_token mersenneParseKey ⟨1700000000, 0⟩ mersenneCfg demoInput
      (2 ^ 127 - 1) (2 ^ 521 - 1) mersenneKey rfl mersenne127_prime mersenne521_prime
      (by decide) rfl (by decide) hok
  exact ⟨hok, sigBytes, htok, hver⟩
